import Mathlib

/-!
# Verification of the tenkai-server workflow layer

Shallow embedding of the tenkai-server Go implementation (the single-file
server: `main.go` and its extended variant).  Pure data and the handlers'
control flow are translated directly from the Go source.  Network calls to
the remote hosting service are modelled by an explicit server state together
with per-call Boolean oracles giving each call's transport/API outcome; the
text-generation collaborator is modelled by the string it would return
(`""` for a failed or empty generation, exactly as `generateAICommitMessage`
returns `""` on every failure path).
-/

namespace Tenkai

/-! ## Remote submit (`POST /api/git/souan-teishutsu`, `handleSouanTeishutsu`) -/

/-- One entry of the `files` array of a souan-teishutsu request. -/
structure FileReq where
  path : String
  content : String
deriving Repr, DecidableEq

/-- Contents of the target branch on the remote host: path ↦ blob content.
The blob hash ("SHA") is content-addressed via `shaOf`. -/
abbrev Server := List (String × String)

/-- The content hash the hosting service stores per file and uses as its
optimistic-concurrency token. -/
def shaOf (content : String) : String := "sha-" ++ content

/-- Look up the blob stored at `path` on the target branch. -/
def lookupFile (srv : Server) (path : String) : Option String :=
  (srv.find? (fun e => e.1 == path)).map (·.2)

/-- Store `content` at `path` (create or overwrite). -/
def setFile (srv : Server) (path content : String) : Server :=
  match srv with
  | [] => [(path, content)]
  | e :: rest => if e.1 == path then (path, content) :: rest else e :: setFile rest path content

/-- One network call issued by `handleSouanTeishutsu`: the GET of a file's
current SHA at the branch, or the PUT updating/creating the file (the PUT
body carries the new content, the branch, and — when one was obtained — the
prior SHA). -/
inductive CallEvent where
  | getFile (path branch : String)
  | putFile (path content : String) (sha : Option String) (branch : String)
deriving Repr, DecidableEq

/-- Outcome of `handleSouanTeishutsu`: the resulting remote state, the trace
of network calls issued, and the HTTP response fields. -/
structure SubmitResult where
  server : Server
  trace : List CallEvent
  status : Nat
  success : Bool
  message : String
deriving Repr, DecidableEq

/-- The per-file loop of `handleSouanTeishutsu`.  For each file the handler
GETs the file's current SHA at `branch` (a failed or non-200 GET is ignored
and simply yields no SHA), then PUTs the new content; on a failed PUT
(transport error or a status other than 200/201) it returns the 500 error
response at once, leaving the remaining files untouched.  `getOk i` and
`putOk i` are the outcomes of the i-th file's GET and PUT calls; a
successful PUT stores the new content on the server. -/
def souanLoop (branch : String) (getOk putOk : Nat → Bool) :
    List FileReq → Server → SubmitResult
  | [], srv => ⟨srv, [], 200, true, "草案を提出しました"⟩
  | f :: rest, srv =>
    let sha := if getOk 0 then (lookupFile srv f.path).map shaOf else none
    let evs := [CallEvent.getFile f.path branch, CallEvent.putFile f.path f.content sha branch]
    if putOk 0 then
      let r := souanLoop branch (fun n => getOk (n + 1)) (fun n => putOk (n + 1)) rest
        (setFile srv f.path f.content)
      ⟨r.server, evs ++ r.trace, r.status, r.success, r.message⟩
    else
      ⟨srv, evs, 500, false, "ファイルのコミットに失敗しました"⟩

/-- A souan-teishutsu request body (access token omitted: the oracles model
the authenticated calls). -/
structure TeishutsuReq where
  repository : String
  message : String
  branch : String
  files : List FileReq
deriving Repr, DecidableEq

/-- Handler `handleSouanTeishutsu`: defaults the branch to `"main"` and runs the
per-file loop. -/
def handleSouanTeishutsu (getOk putOk : Nat → Bool) (req : TeishutsuReq) (srv : Server) :
    SubmitResult :=
  souanLoop (if req.branch = "" then "main" else req.branch) getOk putOk req.files srv

/-- Apply a list of file updates to the server state in order. -/
def applyFiles : List FileReq → Server → Server
  | [], srv => srv
  | f :: rest, srv => applyFiles rest (setFile srv f.path f.content)

/-- Spec-side description of `submit_files` (spec §4.2): for each file, first
read its current hash at the branch (absent ↦ no hash), then issue a
content-update call carrying the new content and, if present, the prior
hash. -/
def specSubmitTrace (branch : String) : List FileReq → Server → List CallEvent
  | [], _ => []
  | f :: rest, srv =>
    CallEvent.getFile f.path branch ::
    CallEvent.putFile f.path f.content ((lookupFile srv f.path).map shaOf) branch ::
    specSubmitTrace branch rest (setFile srv f.path f.content)

/-! ## Local Engine (go-git backed handlers in `main.go`) -/

/-- An immutable revision.  Its `id` is the sequence number under which it is
stored in the repository's object store (`revId` renders the 40-character
identifier); `when` is the commit timestamp. -/
structure Commit where
  id : Nat
  parent : Option Nat
  message : String
  author : String
  when : Nat
deriving Repr, DecidableEq

/-- The Local Engine's state: the object store (the commit with id `j` is
stored at position `j`), the born branches with their tip commit ids, the
checked-out branch (`head`), the clock supplying commit timestamps, and the
modified paths of the working tree. -/
structure LocalRepo where
  commits : List Commit
  branches : List (String × Nat)
  head : String
  clock : Nat
  modified : List String
deriving Repr, DecidableEq

/-- Model of `git.PlainInit`: an empty repository whose `HEAD` names the unborn
`master` branch. -/
def initRepo : LocalRepo := ⟨[], [], "master", 0, []⟩

/-- Resolve a branch name to its tip commit id (`none` when unborn/absent). -/
def lookupBranch (bs : List (String × Nat)) (name : String) : Option Nat :=
  (bs.find? (fun e => e.1 == name)).map (·.2)

/-- Point branch `name` at commit `tip` (create or update the ref). -/
def setBranch (bs : List (String × Nat)) (name : String) (tip : Nat) : List (String × Nat) :=
  match bs with
  | [] => [(name, tip)]
  | e :: rest => if e.1 == name then (name, tip) :: rest else e :: setBranch rest name tip

/-- Model of `repo.Head()`: the current branch's tip (`none` when the branch is
unborn, in which case `Head` errors). -/
def tipOf (st : LocalRepo) : Option Nat := lookupBranch st.branches st.head

/-- The 40-character revision identifier of the commit with object-store id `n`
(content-address stand-in: hex of `n`, zero-padded to 40 characters). -/
def revId (n : Nat) : String :=
  let s := Nat.toDigits 16 n
  String.mk (List.replicate (40 - s.length) '0' ++ s)

/-- Generic success/error response envelope (`Response` in the source),
with the HTTP status it is sent under and the per-handler `data` payload
split into typed fields by the individual response structures below. -/
structure SaveResp where
  status : Nat
  success : Bool
  message : String
  dataCommit : Option String
  dataMessage : Option String
deriving Repr, DecidableEq

/-- A `POST /api/save` body. -/
structure SaveReq where
  message : String
  useAI : Bool
deriving Repr, DecidableEq

/-- Helper `formatChanges`: one `path: kind` line per modified path, newline
separated (empty when the working tree is clean). -/
def formatChanges (modified : List String) : String :=
  String.intercalate "\n" (modified.map (fun p => p ++ ": Modified"))

/-- The timestamped default commit message `"<now> - 自動保存"`;
`fmtTime` stands for Go's `time.Format("2006/01/02 15:04:05")`. -/
def defaultSaveMessage (fmtTime : Nat → String) (clock : Nat) : String :=
  fmtTime clock ++ " - 自動保存"

/-- The state transition of a successful commit: append the new revision
(parent = current tip, timestamp = the clock), advance the branch ref, tick
the clock, and leave a clean working tree. -/
def commitState (msg : String) (st : LocalRepo) : LocalRepo :=
  let cid := st.commits.length
  { st with
    commits := st.commits ++ [⟨cid, tipOf st, msg, "tenkai", st.clock⟩],
    branches := setBranch st.branches st.head cid,
    clock := st.clock + 1,
    modified := [] }

/-- Handler `handleSave`: stages everything, synthesizes the timestamped default
message when the caller's is empty, optionally replaces it by the
text-generation collaborator's output (only when `useAI` is set, a client is
configured, the change summary is non-empty and the generated message is
non-empty — `aiResult` is the collaborator's output, `""` standing for every
failure path of `generateAICommitMessage`), then commits.  Returns the new
state and the response carrying the 7-character short id and final
message. -/
def handleSave (fmtTime : Nat → String) (genConfigured : Bool) (aiResult : String)
    (repo? : Option LocalRepo) (req : SaveReq) : Option LocalRepo × SaveResp :=
  match repo? with
  | none => (none, ⟨400, false, "先に初期化してください", none, none⟩)
  | some st =>
    let msg0 := if req.message = "" then defaultSaveMessage fmtTime st.clock else req.message
    let changes := formatChanges st.modified
    let msg := if req.useAI && genConfigured && changes != "" && aiResult != "" then aiResult
      else msg0
    (some (commitState msg st),
     ⟨200, true, "保存しました", some ((revId st.commits.length).take 7), some msg⟩)

/-- A sequence of saves applied through the `POST /api/save` handler. -/
def applySaves (fmtTime : Nat → String) (genConfigured : Bool) (aiResult : String) :
    List SaveReq → LocalRepo → LocalRepo
  | [], st => st
  | r :: rest, st =>
    applySaves fmtTime genConfigured aiResult rest
      ((handleSave fmtTime genConfigured aiResult (some st) r).1.getD st)

/-- Object-store lookup by commit id. -/
def getCommit (cs : List Commit) (i : Nat) : Option Commit := cs[i]?

/-- The revision walk of `repo.Log(From: tip)`: follow parent links from the
given commit id, newest first.  `fuel` bounds the walk (the handler passes
the store size, which covers any parent chain). -/
def walkHistory (cs : List Commit) : Nat → Option Nat → List Commit
  | _, none => []
  | 0, some _ => []
  | fuel + 1, some i =>
    match getCommit cs i with
    | none => []
    | some c => c :: walkHistory cs fuel c.parent

/-- The revisions `handleHistory` materializes: the walk from the current
tip, capped at the fixed limit of 20 entries. -/
def historyCommits (st : LocalRepo) : List Commit :=
  (walkHistory st.commits st.commits.length (tipOf st)).take 20

/-- One entry of the `GET /api/history` payload. -/
structure HistEntry where
  id : String
  date : String
  message : String
  author : String
deriving Repr, DecidableEq

/-- Render one walked commit as a history entry. -/
def mkHistEntry (fmtTime : Nat → String) (c : Commit) : HistEntry :=
  ⟨(revId c.id).take 7, fmtTime c.when, c.message, c.author⟩

/-- Response of `GET /api/history`. -/
structure HistResp where
  status : Nat
  success : Bool
  message : String
  data : Option (List HistEntry)
deriving Repr, DecidableEq

/-- Handler `handleHistory`: errors when uninitialized or when `Head` fails (unborn
branch); otherwise returns at most 20 entries walked from the tip. -/
def handleHistory (fmtTime : Nat → String) (repo? : Option LocalRepo) : HistResp :=
  match repo? with
  | none => ⟨400, false, "先に初期化してください", none⟩
  | some st =>
    match tipOf st with
    | none => ⟨500, false, "履歴の取得に失敗しました", none⟩
    | some _ => ⟨200, true, "", some ((historyCommits st).map (mkHistEntry fmtTime))⟩

/-- Modelled from the spec: draft creation delegates to the go-git library
call `Worktree.Checkout{Create: true}`, whose implementation is not under
`src/`.  Per the spec (§3, §4.1) creating a draft whose ref already exists
"must fail rather than silently overwrite", surfacing the backend's
branch-already-exists error and leaving the existing ref unchanged;
otherwise a new ref is created at the current tip and checked out (the
checkout of an unborn `HEAD` fails with a reference-not-found error). -/
def checkoutCreate (st : LocalRepo) (name : String) : Except String LocalRepo :=
  if (lookupBranch st.branches name).isSome then
    Except.error ("a branch named \"refs/heads/" ++ name ++ "\" already exists")
  else
    match tipOf st with
    | none => Except.error "reference not found"
    | some t =>
      Except.ok { st with branches := setBranch st.branches name t, head := name }

/-- Response of `POST /api/draft/create`. -/
structure DraftResp where
  status : Nat
  success : Bool
  message : String
  err : String
  draft : Option String
deriving Repr, DecidableEq

/-- Handler `handleDraftCreate`: checkout-create the named branch, mapping the
backend error to the 500 response and success to the 200 response. -/
def handleDraftCreate (repo? : Option LocalRepo) (name : String) :
    Option LocalRepo × DraftResp :=
  match repo? with
  | none => (none, ⟨400, false, "先に初期化してください", "", none⟩)
  | some st =>
    match checkoutCreate st name with
    | Except.error e => (some st, ⟨500, false, "草案の作成に失敗しました", e, none⟩)
    | Except.ok st' =>
      (some st', ⟨200, true, "草案「" ++ name ++ "」を作成しました", "", some name⟩)

/-! ## Settings store and the identity-scoped GET endpoints -/

/-- The versioned settings document (`TenkaiSettings`); `customSettings`
models the JSON object as an association list. -/
structure TenkaiSettings where
  version : String
  charsPerLine : Nat
  linesPerPage : Nat
  writingMode : String
  theme : String
  repositories : List String
  activeRepo : String
  customSettings : List (String × String)
  lastUpdated : String
deriving Repr, DecidableEq

/-- Strip the `"Bearer "` prefix from an Authorization header value
(`strings.TrimPrefix` guarded by `strings.HasPrefix`). -/
def stripBearer (tok : String) : String :=
  if tok.startsWith "Bearer " then tok.drop 7 else tok

/-- The documented default settings document built by `handleGetSettings`
when the settings read fails; `now` is the RFC3339-formatted current time. -/
def defaultSettings (now : String) : TenkaiSettings :=
  ⟨"1.0", 17, 42, "vertical", "light", [], "", [], now⟩

/-- Response of `GET`/`POST /api/settings`. -/
structure SettingsResp where
  status : Nat
  success : Bool
  message : String
  data : Option TenkaiSettings
deriving Repr, DecidableEq

/-- Handler `handleGetSettings`: 401 on a missing Authorization header; resolve the
identity (`userApi token`, `none` standing for any failure of
`getGitHubUser`, answered with 401); then read the settings file
(`settingsApi login`, an `Except` standing for `getTenkaiSettings`), and on
ANY read error fall back to the documented default document with
`success = true`. -/
def handleGetSettings (userApi : String → Option String)
    (settingsApi : String → Except String TenkaiSettings)
    (now : String) (authHeader : String) : SettingsResp :=
  if authHeader = "" then ⟨401, false, "認証が必要です", none⟩
  else
    match userApi (stripBearer authHeader) with
    | none => ⟨401, false, "GitHubユーザー情報の取得に失敗しました", none⟩
    | some login =>
      match settingsApi login with
      | Except.error _ => ⟨200, true, "デフォルト設定を返しました", some (defaultSettings now)⟩
      | Except.ok s => ⟨200, true, "", some s⟩

/-- Response of `GET /api/repositories`. -/
structure ReposResp where
  status : Nat
  success : Bool
  message : String
  data : Option (List String)
deriving Repr, DecidableEq

/-- Handler `handleGetRepositories`: 401 on a missing Authorization header, then the
repository listing call. -/
def handleGetRepositories (reposApi : String → Except String (List String))
    (authHeader : String) : ReposResp :=
  if authHeader = "" then ⟨401, false, "認証が必要です", none⟩
  else
    match reposApi (stripBearer authHeader) with
    | Except.error _ => ⟨500, false, "リポジトリ一覧の取得に失敗しました", none⟩
    | Except.ok rs => ⟨200, true, "", some rs⟩

/-- A bound `POST /api/settings` body. -/
structure SettingsRequest where
  accessToken : String
  settings : TenkaiSettings
deriving Repr, DecidableEq

/-- The JSON binding of `POST /api/settings`: `access_token` is tagged
`binding:"required"`, so `ShouldBindJSON` rejects a body whose token is
missing or empty (Gin's `required` fails on the string zero value). -/
def bindSettingsRequest (accessToken : Option String) (settings : TenkaiSettings) :
    Option SettingsRequest :=
  match accessToken with
  | none => none
  | some t => if t = "" then none else some ⟨t, settings⟩

/-- Handler `handleSaveSettings`: 400 when binding fails, 401 when the identity
lookup fails, otherwise stamp `last_updated` and write the whole document
(`saveApi`, an `Except` standing for `saveTenkaiSettings`). -/
def handleSaveSettings (userApi : String → Option String)
    (saveApi : String → TenkaiSettings → Except String Unit)
    (now : String) (body : Option SettingsRequest) : SettingsResp :=
  match body with
  | none => ⟨400, false, "リクエストが不正です", none⟩
  | some req =>
    match userApi req.accessToken with
    | none => ⟨401, false, "GitHubユーザー情報の取得に失敗しました", none⟩
    | some login =>
      let stamped := { req.settings with lastUpdated := now }
      match saveApi login stamped with
      | Except.error _ => ⟨500, false, "設定の保存に失敗しました", none⟩
      | Except.ok _ => ⟨200, true, "設定を保存しました", some stamped⟩

/-- One branch as listed by the remote host. -/
structure BranchInfo where
  name : String
  isProtected : Bool
  commitSha : String
deriving Repr, DecidableEq

/-- Response of `GET /api/git/souan-list`. -/
structure SouanListResp where
  status : Nat
  success : Bool
  message : String
  data : Option (List BranchInfo)
deriving Repr, DecidableEq

/-- Handler `handleSouanList`: note that a missing Authorization header (or a
missing `repository` query parameter) is answered with **400**, not 401. -/
def handleSouanList (branchesApi : String → String → Except String (List BranchInfo))
    (authHeader repository : String) : SouanListResp :=
  if authHeader = "" || repository = "" then
    ⟨400, false, "認証トークンとリポジトリ名が必要です", none⟩
  else
    match branchesApi (stripBearer authHeader) repository with
    | Except.error _ => ⟨500, false, "草案一覧の取得に失敗しました", none⟩
    | Except.ok bs => ⟨200, true, "", some bs⟩

/-- Response of `GET /api/git/repository-info` (the payload modelled as the
decoded JSON object's fields). -/
structure RepoInfoResp where
  status : Nat
  success : Bool
  message : String
  data : Option (List (String × String))
deriving Repr, DecidableEq

/-- Handler `handleRepositoryInfo`: like `handleSouanList`, a missing Authorization
header or repository name is answered with **400**, not 401. -/
def handleRepositoryInfo (infoApi : String → String → Except String (List (String × String)))
    (authHeader repository : String) : RepoInfoResp :=
  if authHeader = "" || repository = "" then
    ⟨400, false, "認証トークンとリポジトリ名が必要です", none⟩
  else
    match infoApi (stripBearer authHeader) repository with
    | Except.error _ => ⟨500, false, "リポジトリ情報の取得に失敗しました", none⟩
    | Except.ok info => ⟨200, true, "", some info⟩

/-! ## Kousei-irai (`POST /api/git/kousei-irai`, `handleKouseiIrai`) -/

/-- A kousei-irai request body. -/
structure KouseiReq where
  accessToken : String
  repository : String
  branch : String
  title : String
  description : String
  reviewers : List String
  baseBranch : String
deriving Repr, DecidableEq

/-- A review request (pull request) held by the remote host. -/
structure PullRequest where
  number : Nat
  title : String
  body : String
  head : String
  base : String
  reviewers : List String
deriving Repr, DecidableEq

/-- The remote host's review-request state. -/
structure GHState where
  prs : List PullRequest
  nextNumber : Nat
deriving Repr, DecidableEq

/-- The fixed suffix `handleKouseiIrai` appends to the caller's description
before creating the review request. -/
def kouseiSuffix : String := "\n\n📝 校正をお願いします"

/-- One network call issued by `handleKouseiIrai`. -/
inductive GHCall where
  | createPull (repository title body head base : String)
  | requestReviewers (repository : String) (number : Nat) (reviewers : List String)
deriving Repr, DecidableEq

/-- Response of `POST /api/git/kousei-irai`. -/
structure KouseiResp where
  status : Nat
  success : Bool
  message : String
  dataNumber : Option Nat
  dataReviewers : Option (List String)
deriving Repr, DecidableEq

/-- Outcome of `handleKouseiIrai`: the remote state, the response, the calls
issued, and the server log lines written. -/
structure KouseiOutcome where
  state : GHState
  resp : KouseiResp
  calls : List GHCall
  logs : List String
deriving Repr, DecidableEq

/-- Attach reviewers to the numbered review request. -/
def attachReviewers (gh : GHState) (number : Nat) (rs : List String) : GHState :=
  ⟨gh.prs.map (fun pr =>
      if pr.number == number then { pr with reviewers := pr.reviewers ++ rs } else pr),
   gh.nextNumber⟩

/-- Handler `handleKouseiIrai`: default the base branch to `"main"`, create the
review request with the suffixed body (`createOk` is that call's outcome; a
failure is the 500 error response), then — only when reviewers were supplied
— issue the reviewer-attachment call (`attachOk`).  An attachment failure is
only written to the server log; the response is the plain success response
either way. -/
def handleKouseiIrai (createOk attachOk : Bool) (gh : GHState) (req : KouseiReq) :
    KouseiOutcome :=
  let base := if req.baseBranch = "" then "main" else req.baseBranch
  let body := req.description ++ kouseiSuffix
  let createCall := GHCall.createPull req.repository req.title body req.branch base
  if createOk then
    let pr : PullRequest := ⟨gh.nextNumber, req.title, body, req.branch, base, []⟩
    let gh1 : GHState := ⟨gh.prs ++ [pr], gh.nextNumber + 1⟩
    let okResp : KouseiResp :=
      ⟨200, true, "校正依頼を作成しました", some pr.number, some req.reviewers⟩
    if 0 < req.reviewers.length then
      let attachCall := GHCall.requestReviewers req.repository pr.number req.reviewers
      if attachOk then
        ⟨attachReviewers gh1 pr.number req.reviewers, okResp, [createCall, attachCall], []⟩
      else
        ⟨gh1, okResp, [createCall, attachCall], ["レビュワーの追加に失敗"]⟩
    else
      ⟨gh1, okResp, [createCall], []⟩
  else
    ⟨gh, ⟨500, false, "校正依頼の作成に失敗しました", none, none⟩, [createCall], []⟩

/-! ## Auxiliary invariant for the Local Engine -/

/-- States reachable by saves from `initRepo` form a single linear chain:
the clock counts the commits, the current tip is the last commit, and the
commit stored at position `j` has id `j`, parent `j - 1` (none for the
root) and timestamp `j`. -/
def ChainInv (st : LocalRepo) : Prop :=
  st.clock = st.commits.length ∧
  tipOf st = (if st.commits.length = 0 then none else some (st.commits.length - 1)) ∧
  ∀ j (h : j < st.commits.length),
    st.commits[j].id = j ∧
    st.commits[j].parent = (if j = 0 then none else some (j - 1)) ∧
    st.commits[j].when = j

/-! ## Theorems -/

theorem souanLoop_trace_allOk (branch : String) (files : List FileReq) (srv : Server) :
    (souanLoop branch (fun _ => true) (fun _ => true) files srv).trace =
      specSubmitTrace branch files srv := by
  induction files generalizing srv with
  | nil => rfl
  | cons f rest ih => simp [souanLoop, specSubmitTrace, ih]

theorem souanLoop_first_put_failure (branch : String) (k : Nat) :
    ∀ (getOk putOk : Nat → Bool) (files : List FileReq) (srv : Server),
      k < files.length → putOk k = false → (∀ i, i < k → putOk i = true) →
      souanLoop branch getOk putOk files srv =
        souanLoop branch getOk putOk (files.take (k + 1)) srv ∧
      (souanLoop branch getOk putOk files srv).server = applyFiles (files.take k) srv ∧
      (souanLoop branch getOk putOk files srv).status = 500 ∧
      (souanLoop branch getOk putOk files srv).success = false := by
  induction k with
  | zero =>
    intro getOk putOk files srv hk hfail hok
    match files with
    | [] => simp at hk
    | f :: rest => refine ⟨?_, ?_, ?_, ?_⟩ <;> simp [souanLoop, hfail, applyFiles]
  | succ k ih =>
    intro getOk putOk files srv hk hfail hok
    match files with
    | [] => simp at hk
    | f :: rest =>
      have h0 : putOk 0 = true := hok 0 (Nat.succ_pos k)
      have hk' : k < rest.length := by simpa using hk
      have hok' : ∀ i, i < k → putOk (i + 1) = true := fun i hi => hok (i + 1) (by omega)
      obtain ⟨e1, e2, e3, e4⟩ :=
        ih (fun n => getOk (n + 1)) (fun n => putOk (n + 1)) rest
          (setFile srv f.path f.content) hk' hfail hok'
      refine ⟨?_, ?_, ?_, ?_⟩
      · simp [souanLoop, h0, List.take_succ_cons, e1]
      · simp only [souanLoop, h0, if_true, List.take_succ_cons, applyFiles]
        simpa using e2
      · simpa [souanLoop, h0] using e3
      · simpa [souanLoop, h0] using e4

/-- C1: in a multi-file remote submit whose k-th content-update call is the
first to fail, the handler returns an error response (500, success=false),
the updates already issued for the first k files remain committed on the
server, and the run is identical to a run given only the first k + 1 files —
no read or update is ever attempted for the later files; there is no
cross-file atomicity or rollback. -/
theorem souan_teishutsu_no_cross_file_atomicity
    (getOk putOk : Nat → Bool) (req : TeishutsuReq) (srv : Server) (k : Nat)
    (hk : k < req.files.length) (hfail : putOk k = false)
    (hok : ∀ i, i < k → putOk i = true) :
    (handleSouanTeishutsu getOk putOk req srv).success = false ∧
    (handleSouanTeishutsu getOk putOk req srv).status = 500 ∧
    (handleSouanTeishutsu getOk putOk req srv).server = applyFiles (req.files.take k) srv ∧
    handleSouanTeishutsu getOk putOk req srv =
      handleSouanTeishutsu getOk putOk { req with files := req.files.take (k + 1) } srv := by
  obtain ⟨e1, e2, e3, e4⟩ :=
    souanLoop_first_put_failure (if req.branch = "" then "main" else req.branch) k
      getOk putOk req.files srv hk hfail hok
  exact ⟨e4, e3, e2, e1⟩

theorem souan_teishutsu_no_cross_file_atomicity_witness :
    (handleSouanTeishutsu (fun _ => true) (fun i => i != 1)
      ⟨"alice/book", "保存", "", [⟨"a.txt", "A"⟩, ⟨"b.txt", "B"⟩, ⟨"c.txt", "C"⟩]⟩
      []).success = false ∧
    (handleSouanTeishutsu (fun _ => true) (fun i => i != 1)
      ⟨"alice/book", "保存", "", [⟨"a.txt", "A"⟩, ⟨"b.txt", "B"⟩, ⟨"c.txt", "C"⟩]⟩
      []).status = 500 ∧
    (handleSouanTeishutsu (fun _ => true) (fun i => i != 1)
      ⟨"alice/book", "保存", "", [⟨"a.txt", "A"⟩, ⟨"b.txt", "B"⟩, ⟨"c.txt", "C"⟩]⟩
      []).server =
      applyFiles (([⟨"a.txt", "A"⟩, ⟨"b.txt", "B"⟩, ⟨"c.txt", "C"⟩] : List FileReq).take 1) [] ∧
    handleSouanTeishutsu (fun _ => true) (fun i => i != 1)
      ⟨"alice/book", "保存", "", [⟨"a.txt", "A"⟩, ⟨"b.txt", "B"⟩, ⟨"c.txt", "C"⟩]⟩ [] =
      handleSouanTeishutsu (fun _ => true) (fun i => i != 1)
        ⟨"alice/book", "保存", "",
          ([⟨"a.txt", "A"⟩, ⟨"b.txt", "B"⟩, ⟨"c.txt", "C"⟩] : List FileReq).take 2⟩ [] :=
  souan_teishutsu_no_cross_file_atomicity (fun _ => true) (fun i => i != 1)
    ⟨"alice/book", "保存", "", [⟨"a.txt", "A"⟩, ⟨"b.txt", "B"⟩, ⟨"c.txt", "C"⟩]⟩ [] 1
    (by decide) (by decide) (by decide)

/-- C2: per file, the handler first reads the file's current hash at the
target branch and then issues the content-update call carrying the new
content and the read hash — the stored hash when the file is present, no
hash (create) when it is absent.  Stated as a refinement: on a clean run the
trace of issued calls equals the spec-side read-then-conditional-write
sequence. -/
theorem souan_teishutsu_read_hash_then_write (req : TeishutsuReq) (srv : Server) :
    (handleSouanTeishutsu (fun _ => true) (fun _ => true) req srv).trace =
      specSubmitTrace (if req.branch = "" then "main" else req.branch) req.files srv :=
  souanLoop_trace_allOk (if req.branch = "" then "main" else req.branch) req.files srv

/-- C3: a local draft-create whose name already names an existing ref fails
with the backend's branch-already-exists error (success=false) and leaves
the repository state — in particular the existing ref's revision —
unchanged. -/
theorem draft_create_existing_name_fails (st : LocalRepo) (name : String) (tip : Nat)
    (h : lookupBranch st.branches name = some tip) :
    handleDraftCreate (some st) name =
      (some st, ⟨500, false, "草案の作成に失敗しました",
        "a branch named \"refs/heads/" ++ name ++ "\" already exists", none⟩) ∧
    lookupBranch ((handleDraftCreate (some st) name).1.getD st).branches name = some tip := by
  have hs : (lookupBranch st.branches name).isSome = true := by simp [h]
  constructor
  · simp [handleDraftCreate, checkoutCreate, hs]
  · simp [handleDraftCreate, checkoutCreate, hs, h]

theorem draft_create_existing_name_fails_witness :
    handleDraftCreate (some ⟨[⟨0, none, "m", "tenkai", 0⟩], [("master", 0), ("dr", 0)],
        "master", 1, []⟩) "dr" =
      (some ⟨[⟨0, none, "m", "tenkai", 0⟩], [("master", 0), ("dr", 0)], "master", 1, []⟩,
       ⟨500, false, "草案の作成に失敗しました",
        "a branch named \"refs/heads/" ++ "dr" ++ "\" already exists", none⟩) ∧
    lookupBranch ((handleDraftCreate (some ⟨[⟨0, none, "m", "tenkai", 0⟩],
        [("master", 0), ("dr", 0)], "master", 1, []⟩) "dr").1.getD
        ⟨[⟨0, none, "m", "tenkai", 0⟩], [("master", 0), ("dr", 0)], "master", 1, []⟩).branches
      "dr" = some 0 :=
  draft_create_existing_name_fails
    ⟨[⟨0, none, "m", "tenkai", 0⟩], [("master", 0), ("dr", 0)], "master", 1, []⟩ "dr" 0
    (by decide)

theorem lookupBranch_setBranch_self (bs : List (String × Nat)) (name : String) (tip : Nat) :
    lookupBranch (setBranch bs name tip) name = some tip := by
  induction bs with
  | nil => simp [setBranch, lookupBranch]
  | cons e rest ih =>
    by_cases he : e.1 == name
    · simp [setBranch, he, lookupBranch]
    · simp only [setBranch, he, if_false, Bool.false_eq_true]
      simpa [lookupBranch, List.find?_cons, he] using ih

theorem chainInv_init : ChainInv initRepo := by
  refine ⟨rfl, rfl, ?_⟩
  intro j h
  simp [initRepo] at h

theorem chainInv_commitState (st : LocalRepo) (msg : String) (h : ChainInv st) :
    ChainInv (commitState msg st) := by
  obtain ⟨hclock, htip, hcomm⟩ := h
  refine ⟨?_, ?_, ?_⟩
  · simp [commitState, hclock]
  · simp [commitState, tipOf, lookupBranch_setBranch_self]
  · intro j hj
    simp only [commitState, List.length_append, List.length_cons, List.length_nil] at hj
    rcases Nat.lt_or_ge j st.commits.length with hlt | hge
    · simp only [commitState]
      rw [List.getElem_append_left hlt]
      exact hcomm j hlt
    · have hj' : j = st.commits.length := by omega
      subst hj'
      simp only [commitState]
      rw [List.getElem_concat_length st.commits _ _ rfl]
      refine ⟨rfl, ?_, hclock⟩
      simpa using htip

theorem chainInv_applySaves (fmtTime : Nat → String) (genConfigured : Bool) (aiResult : String)
    (reqs : List SaveReq) (st : LocalRepo) (h : ChainInv st) :
    ChainInv (applySaves fmtTime genConfigured aiResult reqs st) := by
  induction reqs generalizing st with
  | nil => exact h
  | cons r rest ih =>
    simp only [applySaves, handleSave, Option.getD_some]
    exact ih _ (chainInv_commitState st _ h)

theorem length_applySaves (fmtTime : Nat → String) (genConfigured : Bool) (aiResult : String)
    (reqs : List SaveReq) (st : LocalRepo) :
    (applySaves fmtTime genConfigured aiResult reqs st).commits.length =
      st.commits.length + reqs.length := by
  induction reqs generalizing st with
  | nil => simp [applySaves]
  | cons r rest ih =>
    simp only [applySaves, handleSave, Option.getD_some]
    rw [ih]
    simp [commitState]
    omega

theorem walkHistory_none (cs : List Commit) (fuel : Nat) : walkHistory cs fuel none = [] := by
  cases fuel <;> rfl

theorem walkHistory_decr (cs : List Commit)
    (hinv : ∀ j (h : j < cs.length),
      cs[j].parent = (if j = 0 then none else some (j - 1)) ∧ cs[j].when = j) :
    ∀ fuel i, i < cs.length →
      (∀ x ∈ walkHistory cs fuel (some i), x.when ≤ i) ∧
      List.Chain' (fun a b => b.when < a.when) (walkHistory cs fuel (some i)) := by
  intro fuel
  induction fuel with
  | zero => intro i hi; simp [walkHistory]
  | succ fuel ih =>
    intro i hi
    have hget : getCommit cs i = some cs[i] := by
      simp [getCommit, List.getElem?_eq_getElem hi]
    obtain ⟨hpar, hwhen⟩ := hinv i hi
    match hi' : i, hi with
    | 0, _ =>
      have hpar0 : cs[0].parent = none := by simpa using hpar
      simp only [walkHistory, hget, hpar0, walkHistory_none]
      constructor
      · intro x hx
        simp at hx
        simp [hx, hwhen]
      · simp
    | j + 1, _ =>
      have hj : j < cs.length := by omega
      have hparj : cs[j + 1].parent = some j := by simpa using hpar
      obtain ⟨ihmem, ihchain⟩ := ih j hj
      simp only [walkHistory, hget, hparj]
      constructor
      · intro x hx
        rcases List.mem_cons.mp hx with hx | hx
        · simp [hx, hwhen]
        · exact le_trans (ihmem x hx) (by omega)
      · rw [List.chain'_cons']
        refine ⟨?_, ihchain⟩
        intro y hy
        have hmem : y ∈ walkHistory cs fuel (some j) := List.mem_of_mem_head? hy
        have : y.when ≤ j := ihmem y hmem
        rw [hwhen]
        omega

/-- C4: after any non-empty sequence of saves from an initialized repository,
`GET /api/history` succeeds, its payload is the rendered walk from the
current tip, the walked revisions are in strictly reverse chronological
order (each entry's timestamp strictly exceeds its successor's), and at most
20 entries are returned. -/
theorem history_reverse_chronological_bounded
    (fmtTime : Nat → String) (genConfigured : Bool) (aiResult : String)
    (reqs : List SaveReq) (hne : reqs ≠ []) :
    (handleHistory fmtTime
        (some (applySaves fmtTime genConfigured aiResult reqs initRepo))).success = true ∧
    (handleHistory fmtTime
        (some (applySaves fmtTime genConfigured aiResult reqs initRepo))).data =
      some ((historyCommits (applySaves fmtTime genConfigured aiResult reqs initRepo)).map
        (mkHistEntry fmtTime)) ∧
    List.Chain' (fun a b => b.when < a.when)
      (historyCommits (applySaves fmtTime genConfigured aiResult reqs initRepo)) ∧
    (historyCommits (applySaves fmtTime genConfigured aiResult reqs initRepo)).length ≤ 20 := by
  obtain ⟨hclock, htip, hcomm⟩ :=
    chainInv_applySaves fmtTime genConfigured aiResult reqs initRepo chainInv_init
  have hlen : (applySaves fmtTime genConfigured aiResult reqs initRepo).commits.length =
      reqs.length := by
    simpa [initRepo] using length_applySaves fmtTime genConfigured aiResult reqs initRepo
  have hpos : 0 < (applySaves fmtTime genConfigured aiResult reqs initRepo).commits.length := by
    rw [hlen]; exact List.length_pos.mpr hne
  have htip' : tipOf (applySaves fmtTime genConfigured aiResult reqs initRepo) =
      some ((applySaves fmtTime genConfigured aiResult reqs initRepo).commits.length - 1) := by
    rw [htip]
    simp [Nat.pos_iff_ne_zero.mp hpos]
  have hwalk := walkHistory_decr
    (applySaves fmtTime genConfigured aiResult reqs initRepo).commits
    (fun j h => ⟨(hcomm j h).2.1, (hcomm j h).2.2⟩)
    (applySaves fmtTime genConfigured aiResult reqs initRepo).commits.length
    ((applySaves fmtTime genConfigured aiResult reqs initRepo).commits.length - 1)
    (by omega)
  refine ⟨?_, ?_, ?_, ?_⟩
  · simp [handleHistory, htip']
  · simp [handleHistory, htip']
  · rw [historyCommits, htip']
    exact hwalk.2.take 20
  · rw [historyCommits]
    exact List.length_take_le 20 _

theorem history_reverse_chronological_bounded_witness :
    (handleHistory (fun n => toString n)
        (some (applySaves (fun n => toString n) false "" [⟨"第一稿", false⟩] initRepo))).success =
      true ∧
    (handleHistory (fun n => toString n)
        (some (applySaves (fun n => toString n) false "" [⟨"第一稿", false⟩] initRepo))).data =
      some ((historyCommits (applySaves (fun n => toString n) false "" [⟨"第一稿", false⟩]
        initRepo)).map (mkHistEntry (fun n => toString n))) ∧
    List.Chain' (fun a b => b.when < a.when)
      (historyCommits (applySaves (fun n => toString n) false "" [⟨"第一稿", false⟩] initRepo)) ∧
    (historyCommits (applySaves (fun n => toString n) false "" [⟨"第一稿", false⟩]
      initRepo)).length ≤ 20 :=
  history_reverse_chronological_bounded (fun n => toString n) false "" [⟨"第一稿", false⟩]
    (by decide)

/-- C5: on an initialized repository with a configured text-generation
client, a save with `useAI` whose generation fails or comes back empty
(`generateAICommitMessage` returns `""` on every failure path) produces
exactly the same state and response as the same save without AI; it still
succeeds, using the caller-supplied message or the timestamped default. -/
theorem save_ai_failure_falls_back (fmtTime : Nat → String) (st : LocalRepo) (req : SaveReq)
    (h : req.useAI = true) :
    handleSave fmtTime true "" (some st) req =
      handleSave fmtTime true "" (some st) { req with useAI := false } ∧
    (handleSave fmtTime true "" (some st) req).2.success = true ∧
    (handleSave fmtTime true "" (some st) req).2.dataMessage =
      some (if req.message = "" then defaultSaveMessage fmtTime st.clock else req.message) := by
  refine ⟨?_, ?_, ?_⟩ <;> simp [handleSave]

theorem save_ai_failure_falls_back_witness :
    handleSave (fun n => toString n) true "" (some initRepo) ⟨"", true⟩ =
      handleSave (fun n => toString n) true "" (some initRepo)
        { (⟨"", true⟩ : SaveReq) with useAI := false } ∧
    (handleSave (fun n => toString n) true "" (some initRepo) ⟨"", true⟩).2.success = true ∧
    (handleSave (fun n => toString n) true "" (some initRepo) ⟨"", true⟩).2.dataMessage =
      some (if ("" : String) = "" then defaultSaveMessage (fun n => toString n) initRepo.clock
        else "") :=
  save_ai_failure_falls_back (fun n => toString n) initRepo ⟨"", true⟩ rfl

/-- C9: a save with an empty message and `useAI` false on an initialized
repository with one modified file succeeds; the response carries the first 7
characters of the new revision identifier and the message
`"<timestamp> - 自動保存"` built from the save-time clock. -/
theorem save_empty_message_default (fmtTime : Nat → String) (genConfigured : Bool)
    (aiResult : String) (st : LocalRepo) (p : String) (hmod : st.modified = [p]) :
    handleSave fmtTime genConfigured aiResult (some st) ⟨"", false⟩ =
      (some (commitState (defaultSaveMessage fmtTime st.clock) st),
       ⟨200, true, "保存しました", some ((revId st.commits.length).take 7),
        some (defaultSaveMessage fmtTime st.clock)⟩) := by
  simp [handleSave]

theorem save_empty_message_default_witness :
    handleSave (fun n => toString n) false "" (some ⟨[], [], "master", 0, ["chapter1.txt"]⟩)
        ⟨"", false⟩ =
      (some (commitState (defaultSaveMessage (fun n => toString n) 0)
        ⟨[], [], "master", 0, ["chapter1.txt"]⟩),
       ⟨200, true, "保存しました", some ((revId 0).take 7),
        some (defaultSaveMessage (fun n => toString n) 0)⟩) :=
  save_empty_message_default (fun n => toString n) false ""
    ⟨[], [], "master", 0, ["chapter1.txt"]⟩ "chapter1.txt" rfl

/-- C6 counterexample: with reviewers supplied, a failed reviewer-attachment
call yields a response **identical** to the one sent when the attachment
succeeds — the fixed success message, success=true, and no warning of any
kind — so the attachment failure is NOT surfaced in the response (it is only
written to the server log). -/
theorem kousei_attach_warning_cex :
    (handleKouseiIrai true false ⟨[], 1⟩
        ⟨"tok", "alice/book", "draft-1", "第1章の校正", "説明", ["bob"], ""⟩).resp =
      (handleKouseiIrai true true ⟨[], 1⟩
        ⟨"tok", "alice/book", "draft-1", "第1章の校正", "説明", ["bob"], ""⟩).resp ∧
    (handleKouseiIrai true false ⟨[], 1⟩
        ⟨"tok", "alice/book", "draft-1", "第1章の校正", "説明", ["bob"], ""⟩).resp.success =
      true ∧
    (handleKouseiIrai true false ⟨[], 1⟩
        ⟨"tok", "alice/book", "draft-1", "第1章の校正", "説明", ["bob"], ""⟩).resp.message =
      "校正依頼を作成しました" := by
  refine ⟨?_, ?_, ?_⟩ <;> decide

/-- C6 (amended): when the reviewer-attachment call fails after the review
request was created, the created request is not rolled back (it stays in the
remote state, reviewer-less), the response is the otherwise-successful 200
response — but the failure is only logged, not surfaced in the response,
which is identical to the full-success response. -/
theorem kousei_attach_failure_logged_only (gh : GHState) (req : KouseiReq)
    (h : req.reviewers ≠ []) :
    (handleKouseiIrai true false gh req).state.prs =
      gh.prs ++ [⟨gh.nextNumber, req.title, req.description ++ kouseiSuffix, req.branch,
        (if req.baseBranch = "" then "main" else req.baseBranch), []⟩] ∧
    (handleKouseiIrai true false gh req).resp.success = true ∧
    (handleKouseiIrai true false gh req).resp.status = 200 ∧
    (handleKouseiIrai true false gh req).resp = (handleKouseiIrai true true gh req).resp ∧
    (handleKouseiIrai true false gh req).logs = ["レビュワーの追加に失敗"] := by
  have hlen : 0 < req.reviewers.length := List.length_pos.mpr h
  refine ⟨?_, ?_, ?_, ?_, ?_⟩ <;> simp [handleKouseiIrai, hlen]

theorem kousei_attach_failure_logged_only_witness :
    (handleKouseiIrai true false ⟨[], 1⟩
        ⟨"tok", "alice/book", "draft-1", "第1章の校正", "説明", ["bob"], ""⟩).state.prs =
      ([] : List PullRequest) ++ [⟨1, "第1章の校正", "説明" ++ kouseiSuffix, "draft-1",
        (if ("" : String) = "" then "main" else ""), []⟩] ∧
    (handleKouseiIrai true false ⟨[], 1⟩
        ⟨"tok", "alice/book", "draft-1", "第1章の校正", "説明", ["bob"], ""⟩).resp.success =
      true ∧
    (handleKouseiIrai true false ⟨[], 1⟩
        ⟨"tok", "alice/book", "draft-1", "第1章の校正", "説明", ["bob"], ""⟩).resp.status =
      200 ∧
    (handleKouseiIrai true false ⟨[], 1⟩
        ⟨"tok", "alice/book", "draft-1", "第1章の校正", "説明", ["bob"], ""⟩).resp =
      (handleKouseiIrai true true ⟨[], 1⟩
        ⟨"tok", "alice/book", "draft-1", "第1章の校正", "説明", ["bob"], ""⟩).resp ∧
    (handleKouseiIrai true false ⟨[], 1⟩
        ⟨"tok", "alice/book", "draft-1", "第1章の校正", "説明", ["bob"], ""⟩).logs =
      ["レビュワーの追加に失敗"] :=
  kousei_attach_failure_logged_only ⟨[], 1⟩
    ⟨"tok", "alice/book", "draft-1", "第1章の校正", "説明", ["bob"], ""⟩ (by decide)

/-- C7 counterexample: `GET /api/git/souan-list` with no access token is
answered with HTTP 400, not 401 as the claim states. -/
theorem missing_auth_not_always_401_cex :
    (handleSouanList (fun _ _ => Except.ok []) "" "alice/book").status = 400 ∧
    ¬ (handleSouanList (fun _ _ => Except.ok []) "" "alice/book").status = 401 := by
  refine ⟨?_, ?_⟩ <;> decide

/-- C7 (amended): with no access token, `GET /api/settings` and
`GET /api/repositories` respond 401 with success=false, while
`POST /api/settings` (whose required-token binding fails), `GET
/api/git/souan-list` and `GET /api/git/repository-info` respond 400 with
success=false. -/
theorem missing_auth_status_codes
    (userApi : String → Option String)
    (settingsApi : String → Except String TenkaiSettings)
    (reposApi : String → Except String (List String))
    (saveApi : String → TenkaiSettings → Except String Unit)
    (branchesApi : String → String → Except String (List BranchInfo))
    (infoApi : String → String → Except String (List (String × String)))
    (now repository : String) (s : TenkaiSettings) :
    (handleGetSettings userApi settingsApi now "").status = 401 ∧
    (handleGetSettings userApi settingsApi now "").success = false ∧
    (handleGetRepositories reposApi "").status = 401 ∧
    (handleGetRepositories reposApi "").success = false ∧
    (handleSaveSettings userApi saveApi now (bindSettingsRequest none s)).status = 400 ∧
    (handleSaveSettings userApi saveApi now (bindSettingsRequest none s)).success = false ∧
    (handleSouanList branchesApi "" repository).status = 400 ∧
    (handleSouanList branchesApi "" repository).success = false ∧
    (handleRepositoryInfo infoApi "" repository).status = 400 ∧
    (handleRepositoryInfo infoApi "" repository).success = false := by
  refine ⟨?_, ?_, ?_, ?_, ?_, ?_, ?_, ?_, ?_, ?_⟩ <;>
    simp [handleGetSettings, handleGetRepositories, handleSaveSettings, bindSettingsRequest,
      handleSouanList, handleRepositoryInfo]

/-- C8: an authenticated `GET /api/settings` whose settings-file read
reports not-found returns success=true with the documented default
document: version "1.0", 17 chars per line, 42 lines per page, vertical
writing mode, light theme, empty repositories list and empty active
repository. -/
theorem get_settings_not_found_default
    (userApi : String → Option String) (settingsApi : String → Except String TenkaiSettings)
    (now authHeader login err : String)
    (ha : authHeader ≠ "")
    (hu : userApi (stripBearer authHeader) = some login)
    (hs : settingsApi login = Except.error err) :
    handleGetSettings userApi settingsApi now authHeader =
      ⟨200, true, "デフォルト設定を返しました", some (defaultSettings now)⟩ ∧
    (defaultSettings now).version = "1.0" ∧
    (defaultSettings now).charsPerLine = 17 ∧
    (defaultSettings now).linesPerPage = 42 ∧
    (defaultSettings now).writingMode = "vertical" ∧
    (defaultSettings now).theme = "light" ∧
    (defaultSettings now).repositories = [] ∧
    (defaultSettings now).activeRepo = "" := by
  refine ⟨?_, rfl, rfl, rfl, rfl, rfl, rfl, rfl⟩
  simp [handleGetSettings, ha, hu, hs]

theorem get_settings_not_found_default_witness :
    handleGetSettings (fun _ => some "alice") (fun _ => Except.error "settings not found")
        "2026-10-11T00:00:00Z" "x" =
      ⟨200, true, "デフォルト設定を返しました",
       some (defaultSettings "2026-10-11T00:00:00Z")⟩ ∧
    (defaultSettings "2026-10-11T00:00:00Z").version = "1.0" ∧
    (defaultSettings "2026-10-11T00:00:00Z").charsPerLine = 17 ∧
    (defaultSettings "2026-10-11T00:00:00Z").linesPerPage = 42 ∧
    (defaultSettings "2026-10-11T00:00:00Z").writingMode = "vertical" ∧
    (defaultSettings "2026-10-11T00:00:00Z").theme = "light" ∧
    (defaultSettings "2026-10-11T00:00:00Z").repositories = [] ∧
    (defaultSettings "2026-10-11T00:00:00Z").activeRepo = "" :=
  get_settings_not_found_default (fun _ => some "alice")
    (fun _ => Except.error "settings not found") "2026-10-11T00:00:00Z" "x" "alice"
    "settings not found" (by decide) rfl rfl

/-- C10: the review-request creation call of `handleKouseiIrai` always
carries the caller's description with the fixed suffix `"\n\n📝
校正をお願いします"` appended — including for an empty description — so the
created request's body is never the description verbatim. -/
theorem kousei_body_always_suffixed (createOk attachOk : Bool) (gh : GHState)
    (req : KouseiReq) :
    (handleKouseiIrai createOk attachOk gh req).calls.head? =
      some (GHCall.createPull req.repository req.title (req.description ++ kouseiSuffix)
        req.branch (if req.baseBranch = "" then "main" else req.baseBranch)) ∧
    req.description ++ kouseiSuffix ≠ req.description := by
  constructor
  · cases createOk <;> simp only [handleKouseiIrai] <;> split_ifs <;> rfl
  · intro hEq
    have hlen := congrArg String.length hEq
    rw [String.length_append] at hlen
    have hzero : kouseiSuffix.length = 0 := by omega
    exact absurd hzero (by decide)

end Tenkai
